import Mathlib

/-!
Verification development for a family of parametric structural-topology
generators (truss bridges, rigid warehouse frames, multi-story grids and
planar plate meshes).  Each generator is shallowly embedded from its
Python source:

* `compute_geometry` (bridge truss generator, MOTOL `main.py`),
* `validate_parameters` / `preview_model` / `_execute_build`
  (warehouse frame builder, GUTIERREZ `main.py`),
* `create_building` (multi-story orthogonal grid, RBJACK `Project.py`),
* `generate_wall` / `generate_slab` (plate mesher, TAKABE
  `project-takabe.py`).

Node ids are natural numbers, coordinates are exact rationals or reals
(the Python floats are abstracted to exact real arithmetic), and the
imperative id counters are rendered as explicit id formulas or
`enumFrom`-style position numbering, which agrees with the sequential
counters because every loop increments the counter exactly once per
created entity.
-/

namespace Spec2Proof

/-- A member/beam record: (member id, start joint id, end joint id). -/
abbrev Member : Type := ℕ × ℕ × ℕ

/-! ## Python round(x, 4)

`round4` models Python's `round(x, 4)` over exact reals: round half to
even at four decimal places.  (Binary floating point is abstracted to
exact real arithmetic.) -/

open scoped Classical in
/-- Python `round(x, 4)`: round to 4 decimal places, ties to even. -/
noncomputable def round4 (x : ℝ) : ℝ :=
  if x * 10000 - ⌊x * 10000⌋ < 1 / 2 then (⌊x * 10000⌋ : ℝ) / 10000
  else if 1 / 2 < x * 10000 - ⌊x * 10000⌋ then ((⌊x * 10000⌋ : ℝ) + 1) / 10000
  else (if 2 ∣ ⌊x * 10000⌋ then ((⌊x * 10000⌋ : ℝ)) else ((⌊x * 10000⌋ : ℝ)) + 1) / 10000

/-- If `x` is an integer multiple of `1/10000`, `round4` leaves it unchanged. -/
theorem round4_of_mul_int (x : ℝ) (m : ℤ) (h : x * 10000 = m) : round4 x = x := by
  have hx : x = (m : ℝ) / 10000 := by
    field_simp at h ⊢
    linarith
  have hfloor : ⌊x * 10000⌋ = m := by rw [h]; exact Int.floor_intCast m
  unfold round4
  rw [hfloor, h]
  simp only [sub_self]
  rw [if_pos (by norm_num)]
  rw [hx]

/-- `round4` always produces a rational value. -/
theorem round4_rat (x : ℝ) : ∃ q : ℚ, round4 x = (q : ℝ) := by
  unfold round4
  split
  · exact ⟨(⌊x * 10000⌋ : ℚ) / 10000, by push_cast; ring⟩
  · split
    · exact ⟨((⌊x * 10000⌋ : ℚ) + 1) / 10000, by push_cast; ring⟩
    · split
      · exact ⟨(⌊x * 10000⌋ : ℚ) / 10000, by push_cast; ring⟩
      · exact ⟨((⌊x * 10000⌋ : ℚ) + 1) / 10000, by push_cast; ring⟩

/-! ## Bridge truss generator (`compute_geometry`, MOTOL main.py lines 62-123)

`compute_geometry(span, height, panels, btype)` first creates
`panels + 1` bottom-chord nodes with ids `1 .. panels+1` (lines 70-72),
then the top-chord nodes with the next consecutive ids (lines 74-86),
then the members: bottom chord, top chord, verticals, diagonals, with
member ids counted from 1 in creation order (lines 88-121). -/

/-- The four bridge typologies offered by the GUI (`BRIDGE_TYPES`). -/
inductive BridgeType
  | pratt
  | warren
  | howe
  | bowstring
deriving DecidableEq

/-- Bottom-chord node ids: the loop at lines 70-72 assigns ids `1 .. panels+1`. -/
def botIds (panels : ℕ) : List ℕ := (List.range (panels + 1)).map (· + 1)

/-- Top-chord node ids: assigned immediately after the bottom chord, starting
at `panels + 2`; Warren has one top node per panel (lines 74-77), the other
typologies one per bottom node (lines 78-86). -/
def topIds (panels : ℕ) (b : BridgeType) : List ℕ :=
  match b with
  | .warren => (List.range panels).map (panels + 2 + ·)
  | _ => (List.range (panels + 1)).map (panels + 2 + ·)

/-- The node table of `compute_geometry` (lines 62-86): id with (x, y, z).
`pw = span / panels` (line 63); bottom nodes at `(round(i*pw,4), 0, 0)`;
Warren top nodes at `(round((i+0.5)*pw,4), height, 0)`; Bowstring top
nodes at `(round(i*pw,4), round(height*sin(i/panels*pi),4), 0)`;
Pratt/Howe top nodes at `(round(i*pw,4), height, 0)`. -/
noncomputable def motolNodes (span height : ℝ) (panels : ℕ) (b : BridgeType) :
    List (ℕ × ℝ × ℝ × ℝ) :=
  let pw : ℝ := span / (panels : ℝ)
  ((List.range (panels + 1)).map fun i =>
    ((i + 1 : ℕ), round4 ((i : ℝ) * pw), (0 : ℝ), (0 : ℝ))) ++
  match b with
  | .warren => (List.range panels).map fun i =>
      ((panels + 2 + i : ℕ), round4 (((i : ℝ) + 1 / 2) * pw), height, (0 : ℝ))
  | .bowstring => (List.range (panels + 1)).map fun i =>
      ((panels + 2 + i : ℕ), round4 ((i : ℝ) * pw),
        round4 (height * Real.sin (((i : ℝ) / (panels : ℝ)) * Real.pi)), (0 : ℝ))
  | _ => (List.range (panels + 1)).map fun i =>
      ((panels + 2 + i : ℕ), round4 ((i : ℝ) * pw), height, (0 : ℝ))

/-- Bottom-chord members (lines 92-93): ids `1 .. p`, connecting
`bot[i] = i+1` to `bot[i+1] = i+2`. -/
def motolBC (p : ℕ) : List Member :=
  (List.range p).map fun i => (i + 1, i + 1, i + 2)

/-- Top-chord members: Warren creates `p - 1` of them (lines 96-97), the
other typologies `p` (lines 104, 117); ids continue after the bottom chord
at `p + 1`; they connect `top[i] = p+2+i` to `top[i+1] = p+3+i`. -/
def motolTC (p : ℕ) (b : BridgeType) : List Member :=
  match b with
  | .warren => (List.range (p - 1)).map fun i => (p + 1 + i, p + 2 + i, p + 3 + i)
  | _ => (List.range p).map fun i => (p + 1 + i, p + 2 + i, p + 3 + i)

/-- Vertical members: none for Warren; for Pratt/Howe (lines 105-106) and
Bowstring (lines 118-119) one per bottom node, ids starting at `2p + 1`,
connecting `bot[i]` to `top[i]`. -/
def motolVT (p : ℕ) (b : BridgeType) : List Member :=
  match b with
  | .warren => []
  | _ => (List.range (p + 1)).map fun i => (2 * p + 1 + i, i + 1, p + 2 + i)

/-- Diagonal members.  Warren (lines 98-100): two per panel, ids starting at
`2p` (after `p` bottom-chord and `p-1` top-chord members), the zig-zag pair
`(bot[i], top[i])` then `(top[i], bot[i+1])`.  Pratt/Howe (lines 107-113):
one per panel with `half = panels // 2`; Pratt uses `(top[i], bot[i+1])`
for `i < half` and `(bot[i], top[i+1])` otherwise, Howe the mirror image.
Bowstring (lines 120-121): one per panel, `(bot[i], top[i+1])`. -/
def motolDG (p : ℕ) (b : BridgeType) : List Member :=
  match b with
  | .warren => (List.range p).flatMap fun i =>
      [(2 * p + 2 * i, i + 1, p + 2 + i), (2 * p + 2 * i + 1, p + 2 + i, i + 2)]
  | .pratt => (List.range p).map fun i =>
      if i < p / 2 then (3 * p + 2 + i, p + 2 + i, i + 2)
      else (3 * p + 2 + i, i + 1, p + 3 + i)
  | .howe => (List.range p).map fun i =>
      if i < p / 2 then (3 * p + 2 + i, i + 1, p + 3 + i)
      else (3 * p + 2 + i, p + 2 + i, i + 2)
  | .bowstring => (List.range p).map fun i => (3 * p + 2 + i, i + 1, p + 3 + i)

/-- The full member table of `compute_geometry`, in creation order (bottom
chord, then top chord, then verticals, then diagonals; Warren creates no
verticals so its order bc, tc, dg is preserved). -/
def motolMembers (p : ℕ) (b : BridgeType) : List Member :=
  motolBC p ++ motolTC p b ++ motolVT p b ++ motolDG p b

/-- A `flatMap` producing `c` elements per index has length `n * c`. -/
theorem length_flatMap_const {α : Type} (n c : ℕ) (f : ℕ → List α)
    (h : ∀ i, (f i).length = c) : ((List.range n).flatMap f).length = n * c := by
  induction n with
  | zero => simp
  | succ m ih =>
    rw [List.range_succ, List.flatMap_append, List.length_append, ih]
    simp [h m, Nat.succ_mul]

/-- Length of the Warren diagonal list: two members per panel. -/
theorem motolDG_warren_length (p : ℕ) : (motolDG p .warren).length = 2 * p := by
  have h := length_flatMap_const p 2
      (fun i => [((2 * p + 2 * i, i + 1, p + 2 + i) : Member),
                 (2 * p + 2 * i + 1, p + 2 + i, i + 2)])
      (fun _ => rfl)
  simpa [motolDG, Nat.mul_comm] using h

/-- C1: For a Warren truss with `panel_count = p ≥ 1` the generator produces
exactly `2p + 1` joints (`p + 1` bottom-chord and `p` top-chord joints) and
exactly `4p - 1` members, partitioned into `p` bottom-chord members, `p - 1`
top-chord members, `2p` diagonals and no verticals. -/
theorem warren_count_law (span height : ℝ) (p : ℕ) (hp : 1 ≤ p) :
    (motolNodes span height p .warren).length = 2 * p + 1 ∧
    (botIds p).length = p + 1 ∧
    (topIds p .warren).length = p ∧
    (motolMembers p .warren).length = 4 * p - 1 ∧
    (motolBC p).length = p ∧
    (motolTC p .warren).length = p - 1 ∧
    (motolVT p .warren).length = 0 ∧
    (motolDG p .warren).length = 2 * p := by
  have hdg := motolDG_warren_length p
  refine ⟨?_, ?_, ?_, ?_, ?_, ?_, ?_, hdg⟩
  · simp [motolNodes]; omega
  · simp [botIds]
  · simp [topIds]
  · simp [motolMembers, motolBC, motolTC, motolVT, hdg]; omega
  · simp [motolBC]
  · simp [motolTC]
  · simp [motolVT]

/-- Witness for `warren_count_law` at the spec's instance `p = 8`:
17 joints and 31 members. -/
theorem warren_count_law_witness :
    (motolNodes 120 20 8 .warren).length = 17 ∧
    (motolMembers 8 .warren).length = 31 := by
  obtain ⟨hn, -, -, hm, -⟩ := warren_count_law 120 20 8 (by norm_num)
  exact ⟨by rw [hn], by rw [hm]⟩

/-- C5: Pratt/Howe diagonal rule with the `panels // 2` midspan tie-break.
For panel `i < p`, with `bot[i] = i + 1` and `top[i] = p + 2 + i`:
a Pratt truss connects `top[i]` to `bot[i+1]` when `i < p / 2` and
`bot[i]` to `top[i+1]` otherwise; a Howe truss uses the mirrored rule. -/
theorem pratt_howe_diagonal_rule (p i : ℕ) (hi : i < p) :
    (motolDG p .pratt)[i]? =
      some (if i < p / 2 then (3 * p + 2 + i, p + 2 + i, i + 2)
            else (3 * p + 2 + i, i + 1, p + 3 + i)) ∧
    (motolDG p .howe)[i]? =
      some (if i < p / 2 then (3 * p + 2 + i, i + 1, p + 3 + i)
            else (3 * p + 2 + i, p + 2 + i, i + 2)) := by
  constructor <;> simp [motolDG, List.getElem?_range hi]

/-- Witness for `pratt_howe_diagonal_rule` at `p = 5`, `i = 1` (before the
midspan index `5 // 2 = 2`). -/
theorem pratt_howe_diagonal_rule_witness :
    (motolDG 5 .pratt)[1]? = some (18, 8, 3) ∧
    (motolDG 5 .howe)[1]? = some (18, 2, 9) := by
  have h := pratt_howe_diagonal_rule 5 1 (by norm_num)
  simpa using h

/-! ## Member graphs and connectivity -/

/-- Two joints are adjacent when some member joins them, in either direction. -/
def memAdj (ms : List Member) (a b : ℕ) : Prop :=
  ∃ m ∈ ms, (m.2.1 = a ∧ m.2.2 = b) ∨ (m.2.1 = b ∧ m.2.2 = a)

theorem memAdj_symm (ms : List Member) : Symmetric (memAdj ms) := by
  rintro a b ⟨m, hm, h⟩
  exact ⟨m, hm, h.symm⟩

/-- The member graph on the joint-id list `ids` is connected: every joint
reaches every other joint through members. -/
def graphConnected (ids : List ℕ) (ms : List Member) : Prop :=
  ∀ a ∈ ids, ∀ b ∈ ids, Relation.ReflTransGen (memAdj ms) a b

/-- A predicate that is preserved along every member is preserved along
reachability. -/
theorem reach_invariant {ms : List Member} (P : ℕ → Prop)
    (hP : ∀ a b, memAdj ms a b → P a → P b) {x y : ℕ}
    (hxy : Relation.ReflTransGen (memAdj ms) x y) (hx : P x) : P y := by
  induction hxy with
  | refl => exact hx
  | tail _ hlast ih => exact hP _ _ hlast ih

/-- The joint ids of the truss generator, in creation order. -/
def motolNodeIds (p : ℕ) (b : BridgeType) : List ℕ := botIds p ++ topIds p b

theorem motolNodes_map_fst (span height : ℝ) (p : ℕ) (b : BridgeType) :
    (motolNodes span height p b).map Prod.fst = motolNodeIds p b := by
  cases b <;>
      simp only [motolNodes, motolNodeIds, botIds, topIds, List.map_append,
        List.map_map] <;>
    rfl

/-- Joint 1 (the left support) reaches every bottom-chord joint along the
bottom chord. -/
theorem motol_reach_bot (p : ℕ) (b : BridgeType) (i : ℕ) (hip : i ≤ p) :
    Relation.ReflTransGen (memAdj (motolMembers p b)) 1 (i + 1) := by
  induction i with
  | zero => exact .refl
  | succ n ih =>
    refine (ih (by omega)).tail ⟨(n + 1, n + 1, n + 2), ?_, Or.inl ⟨rfl, rfl⟩⟩
    have : (n + 1, n + 1, n + 2) ∈ motolBC p := by
      simp only [motolBC, List.mem_map, List.mem_range]
      exact ⟨n, by omega, rfl⟩
    simp [motolMembers, List.mem_append, this]

/-- Every top-chord joint hangs off its bottom-chord joint: for each joint
in the top-chord id list there is a member from `bot[i]` to `top[i]` (a
Warren diagonal, or a vertical for the other typologies). -/
theorem motol_top_link (p : ℕ) (b : BridgeType) (x : ℕ) (hx : x ∈ topIds p b) :
    ∃ i, i ≤ p ∧ x = p + 2 + i ∧
      ∃ m ∈ motolMembers p b, m.2.1 = i + 1 ∧ m.2.2 = p + 2 + i := by
  cases b with
  | warren =>
    obtain ⟨i, hip, rfl⟩ : ∃ i, i < p ∧ p + 2 + i = x := by
      simpa [topIds] using hx
    refine ⟨i, by omega, rfl, (2 * p + 2 * i, i + 1, p + 2 + i), ?_, rfl, rfl⟩
    have : (2 * p + 2 * i, i + 1, p + 2 + i) ∈ motolDG p .warren := by
      simp only [motolDG, List.mem_flatMap, List.mem_range]
      exact ⟨i, hip, by simp⟩
    simp [motolMembers, List.mem_append, this]
  | pratt =>
    obtain ⟨i, hip, rfl⟩ : ∃ i, i < p + 1 ∧ p + 2 + i = x := by
      simpa [topIds] using hx
    refine ⟨i, by omega, rfl, (2 * p + 1 + i, i + 1, p + 2 + i), ?_, rfl, rfl⟩
    have : (2 * p + 1 + i, i + 1, p + 2 + i) ∈ motolVT p .pratt := by
      simp only [motolVT, List.mem_map, List.mem_range]
      exact ⟨i, hip, rfl⟩
    simp [motolMembers, List.mem_append, this]
  | howe =>
    obtain ⟨i, hip, rfl⟩ : ∃ i, i < p + 1 ∧ p + 2 + i = x := by
      simpa [topIds] using hx
    refine ⟨i, by omega, rfl, (2 * p + 1 + i, i + 1, p + 2 + i), ?_, rfl, rfl⟩
    have : (2 * p + 1 + i, i + 1, p + 2 + i) ∈ motolVT p .howe := by
      simp only [motolVT, List.mem_map, List.mem_range]
      exact ⟨i, hip, rfl⟩
    simp [motolMembers, List.mem_append, this]
  | bowstring =>
    obtain ⟨i, hip, rfl⟩ : ∃ i, i < p + 1 ∧ p + 2 + i = x := by
      simpa [topIds] using hx
    refine ⟨i, by omega, rfl, (2 * p + 1 + i, i + 1, p + 2 + i), ?_, rfl, rfl⟩
    have : (2 * p + 1 + i, i + 1, p + 2 + i) ∈ motolVT p .bowstring := by
      simp only [motolVT, List.mem_map, List.mem_range]
      exact ⟨i, hip, rfl⟩
    simp [motolMembers, List.mem_append, this]

/-- C2 (amended, truss part): for every truss typology and every panel
count, the member graph of the bridge generator is connected: every
generated joint is reachable from every other joint. -/
theorem motol_truss_connected (span height : ℝ) (p : ℕ) (b : BridgeType) :
    graphConnected ((motolNodes span height p b).map Prod.fst)
      (motolMembers p b) := by
  rw [motolNodes_map_fst]
  have reach1 : ∀ x ∈ motolNodeIds p b,
      Relation.ReflTransGen (memAdj (motolMembers p b)) 1 x := by
    intro x hx
    rcases List.mem_append.1 hx with hbot | htop
    · obtain ⟨i, hi, rfl⟩ : ∃ i, i < p + 1 ∧ i + 1 = x := by
        simpa [botIds] using hbot
      exact motol_reach_bot p b i (by omega)
    · obtain ⟨i, hip, rfl, m, hm, h1, h2⟩ := motol_top_link p b x htop
      exact (motol_reach_bot p b i hip).tail ⟨m, hm, Or.inl ⟨h1, h2⟩⟩
  intro a ha c hc
  exact ((Relation.ReflTransGen.symmetric (memAdj_symm _)) (reach1 a ha)).trans
    (reach1 c hc)

/-! ## Warehouse frame builder (GUTIERREZ main.py)

`validate_parameters` (lines 285-342) collects error strings;
`build_model` (lines 445-473) aborts before any geometry when the error
list is nonempty; `_execute_build` (lines 524-897) creates five nodes per
frame station, four members per station, then optional purlins and
bracing; `preview_model` (lines 344-443) reports predicted counts.
Numeric entry fields are modelled as exact rationals; the bay count,
parsed by Python `int()`, is an integer. -/

/-- The `Frame Type` combo box: "Rigid Frame", "Truss Frame", "Portal Frame". -/
inductive FrameType
  | rigid
  | truss
  | portal
deriving DecidableEq

/-- The parameters of the warehouse frame builder GUI. -/
structure WParams where
  length : ℚ
  width : ℚ
  eaveHeight : ℚ
  ridgeHeight : ℚ
  baySpacing : ℚ
  numBays : ℤ
  deadLoad : ℚ
  liveLoad : ℚ
  windLoad : ℚ
  frameType : FrameType
  purlins : Bool
  purlinSpacing : ℚ
  bracing : Bool
deriving DecidableEq

/-- `validate_parameters` (lines 285-342): the list of validation error
messages, in the order the checks run.  (The parse failure branch for
non-numeric text and the non-blocking warnings are outside this model.) -/
def validateErrors (ps : WParams) : List String :=
  (if ps.length ≤ 0 ∨ 1000 < ps.length
    then ["Length must be between 0 and 1000 ft"] else []) ++
  (if ps.width ≤ 0 ∨ 500 < ps.width
    then ["Width must be between 0 and 500 ft"] else []) ++
  (if ps.eaveHeight ≤ 0 ∨ 100 < ps.eaveHeight
    then ["Eave height must be between 0 and 100 ft"] else []) ++
  (if ps.ridgeHeight ≤ ps.eaveHeight
    then ["Ridge height must be greater than eave height"] else []) ++
  (if ps.baySpacing ≤ 0 ∨ 50 < ps.baySpacing
    then ["Bay spacing must be between 0 and 50 ft"] else []) ++
  (if ps.numBays < 1 ∨ 20 < ps.numBays
    then ["Number of bays must be between 1 and 20"] else []) ++
  (if ps.deadLoad < 0 ∨ 100 < ps.deadLoad
    then ["Dead load must be between 0 and 100 psf"] else []) ++
  (if ps.liveLoad < 0 ∨ 100 < ps.liveLoad
    then ["Live load must be between 0 and 100 psf"] else []) ++
  (if ps.windLoad < 0 ∨ 100 < ps.windLoad
    then ["Wind load must be between 0 and 100 psf"] else []) ++
  (if ps.purlins then
    (if ps.purlinSpacing ≤ 0 ∨ 10 < ps.purlinSpacing
      then ["Purlin spacing must be between 0 and 10 ft"] else [])
   else [])

/-- `num_frames = num_bays + 1` (line 581); the frame loop is
`range(num_frames)`, which is empty when `num_bays + 1 ≤ 0`. -/
def numFrames (ps : WParams) : ℕ := (ps.numBays + 1).toNat

/-- The five nodes of frame station `f` (lines 583-604), ids `5f+1 .. 5f+5`:
left base, left eave, ridge (at `width/2`, `ridge_height`), right eave,
right base, all at `x = f * bay_spacing`. -/
def frameStation (ps : WParams) (f : ℕ) : List (ℕ × ℚ × ℚ × ℚ) :=
  [(5 * f + 1, (f : ℚ) * ps.baySpacing, 0, 0),
   (5 * f + 2, (f : ℚ) * ps.baySpacing, ps.eaveHeight, 0),
   (5 * f + 3, (f : ℚ) * ps.baySpacing, ps.ridgeHeight, ps.width / 2),
   (5 * f + 4, (f : ℚ) * ps.baySpacing, ps.eaveHeight, ps.width),
   (5 * f + 5, (f : ℚ) * ps.baySpacing, 0, ps.width)]

/-- All frame-station nodes, in creation order. -/
def frameNodes (ps : WParams) : List (ℕ × ℚ × ℚ × ℚ) :=
  (List.range (numFrames ps)).flatMap (frameStation ps)

/-- Frame members (lines 616-650): per station with `base_node = 5f+1`,
left column, left rafter, right rafter, right column, member ids
`4f+1 .. 4f+4`. -/
def frameMembers (ps : WParams) : List Member :=
  (List.range (numFrames ps)).flatMap fun f =>
    [(4 * f + 1, 5 * f + 1, 5 * f + 2),
     (4 * f + 2, 5 * f + 2, 5 * f + 3),
     (4 * f + 3, 5 * f + 3, 5 * f + 4),
     (4 * f + 4, 5 * f + 4, 5 * f + 5)]

/-- `column_members`: the first and fourth member of each station. -/
def columnMemberIds (ps : WParams) : List ℕ :=
  (List.range (numFrames ps)).flatMap fun f => [4 * f + 1, 4 * f + 4]

/-- `rafter_members`: the second and third member of each station. -/
def rafterMemberIds (ps : WParams) : List ℕ :=
  (List.range (numFrames ps)).flatMap fun f => [4 * f + 2, 4 * f + 3]

/-- `num_purlins_per_side = int((width / 2) / purlin_spacing)` (line 659).
Python `int()` truncates toward zero; for the positive operands admitted by
validation this is the floor. -/
def purlinsPerSide (ps : WParams) : ℕ := (⌊ps.width / 2 / ps.purlinSpacing⌋).toNat

/-- The purlin position loop `for p in range(1, num_purlins_per_side)`
(line 663): empty whenever `num_purlins_per_side ≤ 1`. -/
def purlinLineIndices (ps : WParams) : List ℕ :=
  List.range' 1 (purlinsPerSide ps - 1)

/-- The purlin creation order (lines 661-702): bay, then side (0 = left
slope, 1 = right slope), then position index. -/
def purlinTriples (ps : WParams) : List (ℕ × ℕ × ℕ) :=
  (List.range ps.numBays.toNat).flatMap fun bay =>
    [0, 1].flatMap fun side =>
      (purlinLineIndices ps).map fun p => (bay, side, p)

/-- The interpolated `y` of a purlin node (lines 682-686): on the left
slope from the left eave to the ridge, on the right slope from the ridge
to the right eave. -/
def purlinY (ps : WParams) (side p : ℕ) : ℚ :=
  let frac : ℚ := (p : ℚ) / (purlinsPerSide ps : ℚ)
  if side = 0 then ps.eaveHeight + frac * (ps.ridgeHeight - ps.eaveHeight)
  else ps.ridgeHeight + frac * (ps.eaveHeight - ps.ridgeHeight)

/-- The interpolated `z` of a purlin node (lines 682-686). -/
def purlinZ (ps : WParams) (side p : ℕ) : ℚ :=
  let frac : ℚ := (p : ℚ) / (purlinsPerSide ps : ℚ)
  if side = 0 then 0 + frac * (ps.width / 2 - 0)
  else ps.width / 2 + frac * (ps.width - ps.width / 2)

/-- Purlin nodes (lines 688-697): each purlin line creates two fresh nodes
with the next two node ids (`node_id` continues after the `5 * num_frames`
frame nodes), at `x = bay * bay_spacing` and `x = (bay+1) * bay_spacing`. -/
def purlinNodes (ps : WParams) : List (ℕ × ℚ × ℚ × ℚ) :=
  if ps.purlins then
    (purlinTriples ps).enum.flatMap fun kt =>
      [(5 * numFrames ps + 2 * kt.1 + 1,
          (kt.2.1 : ℚ) * ps.baySpacing, purlinY ps kt.2.2.1 kt.2.2.2,
          purlinZ ps kt.2.2.1 kt.2.2.2),
       (5 * numFrames ps + 2 * kt.1 + 2,
          ((kt.2.1 : ℚ) + 1) * ps.baySpacing, purlinY ps kt.2.2.1 kt.2.2.2,
          purlinZ ps kt.2.2.1 kt.2.2.2)]
  else []

/-- Purlin members (lines 699-702): one member per purlin line, joining the
two fresh purlin nodes; member ids continue after the `4 * num_frames`
frame members. -/
def purlinMembers (ps : WParams) : List Member :=
  if ps.purlins then
    (purlinTriples ps).enum.map fun kt =>
      (4 * numFrames ps + kt.1 + 1,
       5 * numFrames ps + 2 * kt.1 + 1,
       5 * numFrames ps + 2 * kt.1 + 2)
  else []

/-- Bracing members (lines 707-741): four X-brace members per bay between
stations `bay` and `bay+1`, connecting frame nodes by the fixed offsets
`+1/+7`, `+2/+6`, `+2/+8`, `+3/+7` from `base_node = 5*bay + 1`; member
ids continue after the purlin members. -/
def bracingMembers (ps : WParams) : List Member :=
  if ps.bracing then
    (List.range ps.numBays.toNat).flatMap fun bay =>
      [(4 * numFrames ps + (purlinMembers ps).length + 4 * bay + 1,
          5 * bay + 2, 5 * bay + 8),
       (4 * numFrames ps + (purlinMembers ps).length + 4 * bay + 2,
          5 * bay + 3, 5 * bay + 7),
       (4 * numFrames ps + (purlinMembers ps).length + 4 * bay + 3,
          5 * bay + 3, 5 * bay + 9),
       (4 * numFrames ps + (purlinMembers ps).length + 4 * bay + 4,
          5 * bay + 4, 5 * bay + 8)]
  else []

/-- All nodes created by `_execute_build`, in creation order. -/
def gutierrezNodes (ps : WParams) : List (ℕ × ℚ × ℚ × ℚ) :=
  frameNodes ps ++ purlinNodes ps

/-- All members created by `_execute_build`, in creation order. -/
def gutierrezMembers (ps : WParams) : List Member :=
  frameMembers ps ++ purlinMembers ps ++ bracingMembers ps

/-- The value object produced by one successful build. -/
structure GResult where
  nodes : List (ℕ × ℚ × ℚ × ℚ)
  members : List Member
  columns : List ℕ
  rafters : List ℕ
  purlinIds : List ℕ
  bracingIds : List ℕ
deriving DecidableEq

/-- `build_model` (lines 445-473): validation runs first and the build
thread is started only when the error list is empty, so an invalid
parameter set produces no geometry at all. -/
def buildModel (ps : WParams) : Option GResult :=
  if validateErrors ps = [] then
    some ⟨gutierrezNodes ps, gutierrezMembers ps, columnMemberIds ps,
          rafterMemberIds ps, (purlinMembers ps).map Prod.fst,
          (bracingMembers ps).map Prod.fst⟩
  else none

/-- `nodes_per_frame = 4 if self.frame_type_var.get() == "Rigid Frame" else 5`
(line 363 of `preview_model`). -/
def nodesPerFrame (ft : FrameType) : ℕ :=
  match ft with
  | .rigid => 4
  | _ => 5

/-- `total_nodes = num_frames * nodes_per_frame` (line 364). -/
def previewTotalNodes (ps : WParams) : ℕ :=
  numFrames ps * nodesPerFrame ps.frameType

/-- The GUI's default parameter set (entry defaults at lines 90-148), with
the purlin and bracing check boxes cleared. -/
def psDefault : WParams :=
  { length := 100, width := 60, eaveHeight := 20, ridgeHeight := 28,
    baySpacing := 25, numBays := 4, deadLoad := 15, liveLoad := 20,
    windLoad := 25, frameType := .rigid, purlins := false,
    purlinSpacing := 5, bracing := false }

/-- Every node of a generated frame station is among the built nodes. -/
theorem frameStation_subset (ps : WParams) (f : ℕ) (hf : f < numFrames ps) :
    ∀ x ∈ frameStation ps f, x ∈ gutierrezNodes ps := by
  intro x hx
  exact List.mem_append_left _
    (List.mem_flatMap_of_mem (List.mem_range.2 hf) hx)

/-- C6: with `num_bays = 4`, `bay_spacing = 25`, eave 20, ridge 28, width
60, purlins and bracing off, the build passes validation and creates
exactly 5 frame stations, 25 joints (five per station, at the documented
positions) and 20 frame members (2 columns and 2 rafters per station). -/
theorem rigid_frame_scenario_counts :
    validateErrors psDefault = [] ∧
    numFrames psDefault = 5 ∧
    (gutierrezNodes psDefault).length = 25 ∧
    (gutierrezMembers psDefault).length = 20 ∧
    (columnMemberIds psDefault).length = 10 ∧
    (rafterMemberIds psDefault).length = 10 ∧
    ∀ f : ℕ, f < 5 →
      (5 * f + 1, (f : ℚ) * 25, (0 : ℚ), (0 : ℚ)) ∈ gutierrezNodes psDefault ∧
      (5 * f + 2, (f : ℚ) * 25, (20 : ℚ), (0 : ℚ)) ∈ gutierrezNodes psDefault ∧
      (5 * f + 3, (f : ℚ) * 25, (28 : ℚ), (30 : ℚ)) ∈ gutierrezNodes psDefault ∧
      (5 * f + 4, (f : ℚ) * 25, (20 : ℚ), (60 : ℚ)) ∈ gutierrezNodes psDefault ∧
      (5 * f + 5, (f : ℚ) * 25, (0 : ℚ), (60 : ℚ)) ∈ gutierrezNodes psDefault := by
  refine ⟨by decide, by decide, by decide, by decide, by decide, by decide, ?_⟩
  intro f hf
  have h5 : numFrames psDefault = 5 := by decide
  have hsub := frameStation_subset psDefault f (by omega)
  refine ⟨hsub _ ?_, hsub _ ?_, hsub _ ?_, hsub _ ?_, hsub _ ?_⟩ <;>
    · simp [frameStation, psDefault]
      try norm_num

/-- C3 (code bug): for the default Rigid Frame parameters (which pass
validation), `preview_model` predicts `num_frames * 4 = 20` total nodes
while `_execute_build` creates 5 nodes per frame station, 25 in total. -/
theorem preview_build_node_count_mismatch :
    validateErrors psDefault = [] ∧
    previewTotalNodes psDefault = 20 ∧
    (gutierrezNodes psDefault).length = 25 ∧
    previewTotalNodes psDefault ≠ (gutierrezNodes psDefault).length := by
  exact ⟨by decide, by decide, by decide, by decide⟩

/-- C7 (amended, frame part): whenever the ridge height does not strictly
exceed the eave height, validation reports the ridge/eave error and the
build produces no model at all (no joint is created). -/
theorem ridge_not_above_eave_rejected (ps : WParams)
    (h : ps.ridgeHeight ≤ ps.eaveHeight) :
    "Ridge height must be greater than eave height" ∈ validateErrors ps ∧
    buildModel ps = none := by
  have h4 : (if ps.ridgeHeight ≤ ps.eaveHeight
      then ["Ridge height must be greater than eave height"] else [])
      = ["Ridge height must be greater than eave height"] := if_pos h
  have hmem : "Ridge height must be greater than eave height" ∈
      validateErrors ps := by
    simp [validateErrors, h4]
  refine ⟨hmem, ?_⟩
  have hne := List.ne_nil_of_mem hmem
  simp [buildModel, hne]

/-- The default warehouse parameters with the ridge lowered to the eave
height (`ridge = eave = 20`). -/
def psFlatRidge : WParams := { psDefault with ridgeHeight := 20 }

/-- Witness for `ridge_not_above_eave_rejected` at `ridge = eave = 20`. -/
theorem ridge_not_above_eave_rejected_witness :
    "Ridge height must be greater than eave height" ∈
      validateErrors psFlatRidge ∧
    buildModel psFlatRidge = none :=
  ridge_not_above_eave_rejected psFlatRidge (by norm_num [psFlatRidge, psDefault])

/-- C7 (counterexample): the Pratt-truss generator performs no validation:
`compute_geometry(span = 100, height = 0, panels = 8, Pratt)` (a truss
height of zero, i.e. ridge elevation equal to eave elevation) is not
rejected — it returns a full flat model with 18 joints and 33 members,
every joint at height `y = 0`. -/
theorem motol_flat_pratt_model :
    (motolNodes 100 0 8 .pratt).length = 18 ∧
    (motolMembers 8 .pratt).length = 33 ∧
    ∀ n ∈ motolNodes 100 0 8 .pratt, n.2.2.1 = 0 := by
  refine ⟨by simp [motolNodes], ?_, ?_⟩
  · simp [motolMembers, motolBC, motolTC, motolVT, motolDG]
  · intro n hn
    simp only [motolNodes, List.mem_append, List.mem_map, List.mem_range] at hn
    rcases hn with ⟨i, hi, rfl⟩ | ⟨i, hi, rfl⟩ <;> rfl

/-- The default warehouse parameters with a single bay (purlins and
bracing remain off). -/
def psTwoFrames : WParams := { psDefault with numBays := 1 }

/-- C2 (counterexample): with purlins and bracing both disabled, the rigid
multi-bay frame build places no member between distinct frame stations:
for `num_bays = 1` (a valid parameter set) joints 1 and 6 both exist but
joint 6 (station 2) is unreachable from joint 1 (station 1). -/
theorem rigid_frame_disconnected :
    validateErrors psTwoFrames = [] ∧
    1 ∈ (gutierrezNodes psTwoFrames).map Prod.fst ∧
    6 ∈ (gutierrezNodes psTwoFrames).map Prod.fst ∧
    ¬ Relation.ReflTransGen (memAdj (gutierrezMembers psTwoFrames)) 1 6 := by
  refine ⟨by decide, by decide, by decide, fun hreach => ?_⟩
  have hinv : ∀ x ∈ gutierrezMembers psTwoFrames,
      (x.2.1 ≤ 5 ↔ x.2.2 ≤ 5) := by decide
  have h6 : (6 : ℕ) ≤ 5 := by
    refine reach_invariant (fun v => v ≤ 5) ?_ hreach (by norm_num)
    rintro a c ⟨m, hm, ⟨rfl, rfl⟩ | ⟨rfl, rfl⟩⟩ ha
    · exact (hinv m hm).mp ha
    · exact (hinv m hm).mpr ha
  omega

/-- C9 (amended): when purlins are requested, each roof slope of each bay
receives `max(n - 1, 0)` purlin lines where
`n = int((width/2) / purlin_spacing)` (the loop runs over
`range(1, n)`), for `2 * num_bays * (n - 1)` purlin members in total;
when `n ≤ 1` the purlin loops are empty and generation proceeds normally
with no purlin members and no error. -/
theorem purlin_lines_per_slope (ps : WParams) (h : ps.purlins = true) :
    (purlinLineIndices ps).length = purlinsPerSide ps - 1 ∧
    (purlinMembers ps).length =
      ps.numBays.toNat * (2 * (purlinsPerSide ps - 1)) ∧
    (purlinsPerSide ps ≤ 1 → purlinMembers ps = [] ∧ purlinNodes ps = []) ∧
    (validateErrors ps = [] →
      buildModel ps = some ⟨gutierrezNodes ps, gutierrezMembers ps,
        columnMemberIds ps, rafterMemberIds ps,
        (purlinMembers ps).map Prod.fst,
        (bracingMembers ps).map Prod.fst⟩) := by
  have hlineslen : (purlinLineIndices ps).length = purlinsPerSide ps - 1 := by
    simp [purlinLineIndices]
  have htrip : (purlinTriples ps).length =
      ps.numBays.toNat * (2 * (purlinsPerSide ps - 1)) := by
    refine length_flatMap_const _ _ _ (fun bay => ?_)
    simp [hlineslen]
    omega
  refine ⟨hlineslen, ?_, ?_, ?_⟩
  · simp [purlinMembers, h, htrip]
  · intro hn
    have hzero : purlinsPerSide ps - 1 = 0 := by omega
    have hemp : purlinLineIndices ps = [] := by
      simp [purlinLineIndices, hzero]
    have htripe : purlinTriples ps = [] := by
      simp [purlinTriples, hemp]
    constructor <;> simp [purlinMembers, purlinNodes, h, htripe]
  · intro hv
    simp [buildModel, hv]

/-- The default warehouse parameters with purlins requested but a purlin
spacing too wide for the building: `width = 4`, spacing 10, so
`int((width/2)/spacing) = 0`. -/
def psNoPurlinFit : WParams :=
  { psDefault with purlins := true, purlinSpacing := 10, width := 4 }

/-- Witness for `purlin_lines_per_slope`: with `n = 0` the build succeeds
with no purlin members. -/
theorem purlin_lines_per_slope_witness :
    purlinMembers psNoPurlinFit = [] ∧
    buildModel psNoPurlinFit = some ⟨gutierrezNodes psNoPurlinFit,
      gutierrezMembers psNoPurlinFit, columnMemberIds psNoPurlinFit,
      rafterMemberIds psNoPurlinFit,
      (purlinMembers psNoPurlinFit).map Prod.fst,
      (bracingMembers psNoPurlinFit).map Prod.fst⟩ := by
  have h := purlin_lines_per_slope psNoPurlinFit rfl
  have hn : purlinsPerSide psNoPurlinFit = 0 := by
    have : (⌊(4 : ℚ) / 2 / 10⌋ : ℤ) = 0 := by norm_num
    simp [purlinsPerSide, psNoPurlinFit, psDefault, this]
  exact ⟨(h.2.2.1 (by omega)).1, h.2.2.2 (by decide)⟩

/-- The default warehouse parameters with purlins on (width 60,
purlin spacing 5, so `int((width/2)/spacing) = 6`). -/
def psPurlinDefault : WParams := { psDefault with purlins := true }

/-- C9 (counterexample): at the default purlin parameters
`floor((width/2)/purlin_spacing) = 6`, but the build generates only 5
purlin lines per roof slope per bay (its loop is `range(1, 6)`), so the
per-slope line count does not equal the floor value. -/
theorem purlin_line_count_counterexample :
    purlinsPerSide psPurlinDefault = 6 ∧
    (purlinLineIndices psPurlinDefault).length = 5 ∧
    (purlinLineIndices psPurlinDefault).length ≠
      purlinsPerSide psPurlinDefault := by
  have h6 : purlinsPerSide psPurlinDefault = 6 := by
    have : (⌊(60 : ℚ) / 2 / 5⌋ : ℤ) = 6 := by norm_num
    simp [purlinsPerSide, psPurlinDefault, psDefault, this]
  refine ⟨h6, ?_, ?_⟩ <;> simp [purlinLineIndices, h6]

/-! ## Multi-story orthogonal grid (RBJACK Project.py, `create_building`)

Node ids are assigned sequentially from 1 over the loops
`level in range(stories+1)`, `i in range(bays_x+1)`, `j in range(bays_z+1)`
(lines 37-45).  Beam ids are assigned sequentially from `beam_id = 1`
(lines 50-64), column ids sequentially from `column_id = 1000`
(lines 69-76) — a separate numbering space. -/

/-- `node_map[(level, i, j)]`: the sequential node counter reaches
`level * (bays_x+1) * (bays_z+1) + i * (bays_z+1) + j + 1` at this index. -/
def rbNodeId (baysX baysZ level i j : ℕ) : ℕ :=
  level * ((baysX + 1) * (baysZ + 1)) + i * (baysZ + 1) + j + 1

/-- The node table of `create_building` (lines 37-45): coordinates
`(i * bay_width, level * story_height, j * bay_depth)`. -/
def rbNodes (baysX baysZ stories : ℕ) (bayW bayD storyH : ℚ) :
    List (ℕ × ℚ × ℚ × ℚ) :=
  (List.range (stories + 1)).flatMap fun level =>
    (List.range (baysX + 1)).flatMap fun i =>
      (List.range (baysZ + 1)).map fun j =>
        (rbNodeId baysX baysZ level i j,
         (i : ℚ) * bayW, (level : ℚ) * storyH, (j : ℚ) * bayD)

/-- The beam incidences of lines 50-64 in creation order: on each level
`1 .. stories`, for each `(i, j)`, a beam toward `i+1` when `i < bays_x`
and a beam toward `j+1` when `j < bays_z`. -/
def rbBeamPairs (baysX baysZ stories : ℕ) : List (ℕ × ℕ) :=
  (List.range' 1 stories).flatMap fun level =>
    (List.range (baysX + 1)).flatMap fun i =>
      (List.range (baysZ + 1)).flatMap fun j =>
        (if i < baysX then
          [(rbNodeId baysX baysZ level i j, rbNodeId baysX baysZ level (i + 1) j)]
         else []) ++
        (if j < baysZ then
          [(rbNodeId baysX baysZ level i j, rbNodeId baysX baysZ level i (j + 1))]
         else [])

/-- Beams with their ids: `beam_id` starts at 1 and increments once per
created beam, so the id of a beam is its creation position plus one. -/
def rbBeams (baysX baysZ stories : ℕ) : List Member :=
  (List.enumFrom 1 (rbBeamPairs baysX baysZ stories)).map fun ke =>
    (ke.1, ke.2.1, ke.2.2)

/-- The column incidences of lines 69-76 in creation order: for each level
`0 .. stories-1` and each `(i, j)`, a column up to `level+1`. -/
def rbColPairs (baysX baysZ stories : ℕ) : List (ℕ × ℕ) :=
  (List.range stories).flatMap fun level =>
    (List.range (baysX + 1)).flatMap fun i =>
      (List.range (baysZ + 1)).map fun j =>
        (rbNodeId baysX baysZ level i j, rbNodeId baysX baysZ (level + 1) i j)

/-- Columns with their ids: `column_id` starts at 1000. -/
def rbColumns (baysX baysZ stories : ℕ) : List Member :=
  (List.enumFrom 1000 (rbColPairs baysX baysZ stories)).map fun ke =>
    (ke.1, ke.2.1, ke.2.2)

/-- All members of the grid build, beams then columns (the order the
`CreateBeam` calls are issued). -/
def rbMembers (baysX baysZ stories : ℕ) : List Member :=
  rbBeams baysX baysZ stories ++ rbColumns baysX baysZ stories

/-! Generic id-range lemmas. -/

/-- Blocks of `m` consecutive ids, laid end to end, form one id range. -/
theorem range_flatMap_range' (n m s : ℕ) :
    ((List.range n).flatMap fun i => List.range' (s + i * m) m) =
      List.range' s (n * m) := by
  induction n with
  | zero => simp
  | succ k ih =>
    rw [List.range_succ, List.flatMap_append, ih]
    have : ((([k] : List ℕ)).flatMap fun i => List.range' (s + i * m) m) =
        List.range' (s + k * m) m := by simp
    rw [this, List.range'_append_1, Nat.succ_mul, Nat.add_comm (k * m) m]

/-- Pairs of consecutive ids, laid end to end, form one id range. -/
theorem range_flatMap_pair_range' (n s : ℕ) :
    ((List.range n).flatMap fun i => [s + 2 * i, s + 2 * i + 1]) =
      List.range' s (2 * n) := by
  induction n with
  | zero => simp
  | succ k ih =>
    rw [List.range_succ, List.flatMap_append, ih]
    have : ((([k] : List ℕ)).flatMap fun i => [s + 2 * i, s + 2 * i + 1]) =
        List.range' (s + 2 * k) 2 := by simp [List.range']
    rw [this, List.range'_append_1, Nat.mul_succ, Nat.add_comm (2 * k) 2]

/-- Mapping `fun j => c + j` over `range m` gives `range' c m`. -/
theorem map_add_range_eq_range' (c m : ℕ) :
    (List.range m).map (fun j => c + j) = List.range' c m :=
  (List.range'_eq_map_range c m).symm

/-- Gluing two adjacent id ranges, with the arithmetic side conditions
kept as hypotheses so that `omega` can discharge them. -/
theorem range'_glue (s m t n k : ℕ) (h1 : t = s + m) (h2 : k = m + n) :
    List.range' s m ++ List.range' t n = List.range' s k := by
  subst h1 h2
  rw [List.range'_append_1, Nat.add_comm n m]

/-- The number of top-chord joints per typology. -/
def topCount (p : ℕ) (b : BridgeType) : ℕ :=
  match b with
  | .warren => p
  | _ => p + 1

/-- The bottom-chord ids are `1 .. p+1`. -/
theorem botIds_eq (p : ℕ) : botIds p = List.range' 1 (p + 1) := by
  rw [botIds, ← map_add_range_eq_range' 1 (p + 1)]
  exact List.map_congr_left fun a _ => by omega

/-- The top-chord ids are the next block after the bottom chord. -/
theorem topIds_eq (p : ℕ) (b : BridgeType) :
    topIds p b = List.range' (p + 2) (topCount p b) := by
  cases b <;>
    · simp only [topIds, topCount]
      rw [← map_add_range_eq_range']

/-- Truss joint ids are dense and 1-based. -/
theorem motolNodes_ids (span height : ℝ) (p : ℕ) (b : BridgeType) :
    (motolNodes span height p b).map Prod.fst =
      List.range' 1 ((motolNodes span height p b).length) := by
  have hlen : (motolNodes span height p b).length = (p + 1) + topCount p b := by
    cases b <;> simp [motolNodes, topCount]
  rw [motolNodes_map_fst, hlen, motolNodeIds, botIds_eq, topIds_eq]
  exact range'_glue _ _ _ _ _ (by omega) rfl

/-- The bottom-chord member ids are `1 .. p`. -/
theorem motolBC_ids (p : ℕ) : (motolBC p).map Prod.fst = List.range' 1 p := by
  rw [motolBC, List.map_map, ← map_add_range_eq_range' 1 p]
  exact List.map_congr_left fun a _ => by
    show a + 1 = 1 + a
    omega

/-- The number of top-chord members per typology. -/
def tcCount (p : ℕ) (b : BridgeType) : ℕ :=
  match b with
  | .warren => p - 1
  | _ => p

/-- The number of vertical members per typology. -/
def vtCount (p : ℕ) (b : BridgeType) : ℕ :=
  match b with
  | .warren => 0
  | _ => p + 1

/-- The top-chord member ids continue at `p + 1`. -/
theorem motolTC_ids (p : ℕ) (b : BridgeType) :
    (motolTC p b).map Prod.fst = List.range' (p + 1) (tcCount p b) := by
  cases b <;>
    · simp only [motolTC, tcCount, List.map_map]
      rw [← map_add_range_eq_range']
      exact List.map_congr_left fun a _ => rfl

/-- The vertical member ids continue at `2p + 1` (no verticals for Warren). -/
theorem motolVT_ids (p : ℕ) (b : BridgeType) :
    (motolVT p b).map Prod.fst = List.range' (2 * p + 1) (vtCount p b) := by
  cases b <;>
    first
      | rfl
      | · simp only [motolVT, vtCount, List.map_map]
          rw [← map_add_range_eq_range']
          exact List.map_congr_left fun a _ => rfl

/-- The Warren diagonal member ids are the block `2p .. 4p-1`. -/
theorem motolDG_warren_ids (p : ℕ) :
    (motolDG p .warren).map Prod.fst = List.range' (2 * p) (2 * p) := by
  rw [← range_flatMap_pair_range' p (2 * p)]
  simp only [motolDG, List.map_flatMap]
  rfl

/-- The Pratt/Howe/Bowstring diagonal member ids are the block starting at
`3p + 2`. -/
theorem motolDG_other_ids (p : ℕ) (b : BridgeType) (hb : b ≠ .warren) :
    (motolDG p b).map Prod.fst = List.range' (3 * p + 2) p := by
  cases b with
  | warren => exact absurd rfl hb
  | pratt =>
    simp only [motolDG, List.map_map]
    rw [← map_add_range_eq_range' (3 * p + 2) p]
    refine List.map_congr_left fun a _ => ?_
    show (if a < p / 2 then ((3 * p + 2 + a, p + 2 + a, a + 2) : Member)
          else (3 * p + 2 + a, a + 1, p + 3 + a)).1 = 3 * p + 2 + a
    split <;> rfl
  | howe =>
    simp only [motolDG, List.map_map]
    rw [← map_add_range_eq_range' (3 * p + 2) p]
    refine List.map_congr_left fun a _ => ?_
    show (if a < p / 2 then ((3 * p + 2 + a, a + 1, p + 3 + a) : Member)
          else (3 * p + 2 + a, p + 2 + a, a + 2)).1 = 3 * p + 2 + a
    split <;> rfl
  | bowstring =>
    simp only [motolDG, List.map_map]
    rw [← map_add_range_eq_range' (3 * p + 2) p]
    exact List.map_congr_left fun a _ => rfl

/-- Truss member ids are dense and 1-based, for every typology. -/
theorem motolMembers_ids (p : ℕ) (b : BridgeType) :
    (motolMembers p b).map Prod.fst =
      List.range' 1 ((motolMembers p b).length) := by
  cases b with
  | warren =>
    rcases Nat.eq_zero_or_pos p with rfl | hp
    · rfl
    · have hlen : (motolMembers p .warren).length = 4 * p - 1 := by
        simp [motolMembers, motolBC, motolTC, motolVT, motolDG_warren_length]
        omega
      rw [hlen, motolMembers, List.map_append, List.map_append, List.map_append,
        motolBC_ids, motolTC_ids, motolVT_ids, motolDG_warren_ids]
      have htcc : tcCount p .warren = p - 1 := rfl
      have hvtc : vtCount p .warren = 0 := rfl
      rw [htcc, hvtc]
      rw [range'_glue 1 p (p + 1) (p - 1) (2 * p - 1) (by omega) (by omega),
        List.range'_zero, List.append_nil]
      exact range'_glue 1 (2 * p - 1) (2 * p) (2 * p) (4 * p - 1)
        (by omega) (by omega)
  | pratt =>
    have hlen : (motolMembers p .pratt).length = 4 * p + 1 := by
      simp [motolMembers, motolBC, motolTC, motolVT, motolDG]
      omega
    rw [hlen, motolMembers, List.map_append, List.map_append, List.map_append,
      motolBC_ids, motolTC_ids, motolVT_ids, motolDG_other_ids p _ (by decide)]
    have htcc : tcCount p .pratt = p := rfl
    have hvtc : vtCount p .pratt = p + 1 := rfl
    rw [htcc, hvtc]
    rw [range'_glue 1 p (p + 1) p (2 * p) (by omega) (by omega)]
    rw [range'_glue 1 (2 * p) (2 * p + 1) (p + 1) (3 * p + 1)
        (by omega) (by omega)]
    exact range'_glue 1 (3 * p + 1) (3 * p + 2) p (4 * p + 1)
      (by omega) (by omega)
  | howe =>
    have hlen : (motolMembers p .howe).length = 4 * p + 1 := by
      simp [motolMembers, motolBC, motolTC, motolVT, motolDG]
      omega
    rw [hlen, motolMembers, List.map_append, List.map_append, List.map_append,
      motolBC_ids, motolTC_ids, motolVT_ids, motolDG_other_ids p _ (by decide)]
    have htcc : tcCount p .howe = p := rfl
    have hvtc : vtCount p .howe = p + 1 := rfl
    rw [htcc, hvtc]
    rw [range'_glue 1 p (p + 1) p (2 * p) (by omega) (by omega)]
    rw [range'_glue 1 (2 * p) (2 * p + 1) (p + 1) (3 * p + 1)
        (by omega) (by omega)]
    exact range'_glue 1 (3 * p + 1) (3 * p + 2) p (4 * p + 1)
      (by omega) (by omega)
  | bowstring =>
    have hlen : (motolMembers p .bowstring).length = 4 * p + 1 := by
      simp [motolMembers, motolBC, motolTC, motolVT, motolDG]
      omega
    rw [hlen, motolMembers, List.map_append, List.map_append, List.map_append,
      motolBC_ids, motolTC_ids, motolVT_ids, motolDG_other_ids p _ (by decide)]
    have htcc : tcCount p .bowstring = p := rfl
    have hvtc : vtCount p .bowstring = p + 1 := rfl
    rw [htcc, hvtc]
    rw [range'_glue 1 p (p + 1) p (2 * p) (by omega) (by omega)]
    rw [range'_glue 1 (2 * p) (2 * p + 1) (p + 1) (3 * p + 1)
        (by omega) (by omega)]
    exact range'_glue 1 (3 * p + 1) (3 * p + 2) p (4 * p + 1)
      (by omega) (by omega)

/-- Pointwise-equal functions give equal `flatMap`s. -/
theorem flatMap_congr_left {α β : Type} {l : List α} {f g : α → List β}
    (h : ∀ a ∈ l, f a = g a) : l.flatMap f = l.flatMap g := by
  induction l with
  | nil => rfl
  | cons x xs ih =>
    rw [List.flatMap_cons, List.flatMap_cons, h x (by simp),
      ih fun a ha => h a (by simp [ha])]

/-- The grid node count. -/
theorem rbNodes_length (bx bz st : ℕ) (bw bd sh : ℚ) :
    (rbNodes bx bz st bw bd sh).length =
      (st + 1) * ((bx + 1) * (bz + 1)) := by
  refine length_flatMap_const _ _ _ fun level => ?_
  refine length_flatMap_const _ _ _ fun i => ?_
  simp

/-- Grid joint ids are dense and 1-based: `j` fastest, then `i`, then the
level, exactly the sequential `node_id` counter. -/
theorem rbNodes_ids (bx bz st : ℕ) (bw bd sh : ℚ) :
    (rbNodes bx bz st bw bd sh).map Prod.fst =
      List.range' 1 ((rbNodes bx bz st bw bd sh).length) := by
  rw [rbNodes_length]
  rw [rbNodes]
  simp only [List.map_flatMap, List.map_map]
  have hinner : ∀ level i,
      ((List.range (bz + 1)).map
        (Prod.fst ∘ fun j => ((rbNodeId bx bz level i j,
          (i : ℚ) * bw, (level : ℚ) * sh, (j : ℚ) * bd) : ℕ × ℚ × ℚ × ℚ)))
      = List.range' ((level * ((bx + 1) * (bz + 1)) + 1) + i * (bz + 1))
          (bz + 1) := by
    intro level i
    rw [← map_add_range_eq_range']
    exact List.map_congr_left fun a _ => by
      show rbNodeId bx bz level i a = _
      simp only [rbNodeId]
      omega
  have hmid : ∀ level,
      ((List.range (bx + 1)).flatMap fun i =>
        (List.range (bz + 1)).map
          (Prod.fst ∘ fun j => ((rbNodeId bx bz level i j,
            (i : ℚ) * bw, (level : ℚ) * sh, (j : ℚ) * bd) : ℕ × ℚ × ℚ × ℚ)))
      = List.range' (1 + level * ((bx + 1) * (bz + 1)))
          ((bx + 1) * (bz + 1)) := by
    intro level
    rw [flatMap_congr_left fun i _ => hinner level i,
      range_flatMap_range' (bx + 1) (bz + 1)
        (level * ((bx + 1) * (bz + 1)) + 1)]
    have : level * ((bx + 1) * (bz + 1)) + 1 =
        1 + level * ((bx + 1) * (bz + 1)) := by omega
    rw [this]
  rw [flatMap_congr_left fun level _ => hmid level,
    range_flatMap_range' (st + 1) ((bx + 1) * (bz + 1)) 1]

/-- Grid beam ids are `1 .. #beams`: the sequential `beam_id` counter. -/
theorem rbBeams_ids (bx bz st : ℕ) :
    (rbBeams bx bz st).map Prod.fst =
      List.range' 1 ((rbBeams bx bz st).length) := by
  rw [rbBeams, List.map_map, List.length_map]
  have : (Prod.fst ∘ fun ke : ℕ × (ℕ × ℕ) =>
      ((ke.1, ke.2.1, ke.2.2) : Member)) = Prod.fst := rfl
  rw [this, List.enumFrom_map_fst, List.enumFrom_length]

/-- Grid column ids are `1000 .. 999 + #columns`: the sequential
`column_id` counter starting at 1000. -/
theorem rbColumns_ids (bx bz st : ℕ) :
    (rbColumns bx bz st).map Prod.fst =
      List.range' 1000 ((rbColumns bx bz st).length) := by
  rw [rbColumns, List.map_map, List.length_map]
  have : (Prod.fst ∘ fun ke : ℕ × (ℕ × ℕ) =>
      ((ke.1, ke.2.1, ke.2.2) : Member)) = Prod.fst := rfl
  rw [this, List.enumFrom_map_fst, List.enumFrom_length]

/-- C4 (amended): joint identifiers are dense contiguous 1-based ranges in
both the truss generator and the multi-story grid, and truss member ids
are dense and 1-based; but the grid splits its member numbering into two
spaces: beam ids are the contiguous range from 1 while column ids are the
contiguous range from 1000. -/
theorem id_density_law :
    (∀ (span height : ℝ) (p : ℕ) (b : BridgeType),
      (motolNodes span height p b).map Prod.fst =
        List.range' 1 (motolNodes span height p b).length ∧
      (motolMembers p b).map Prod.fst =
        List.range' 1 (motolMembers p b).length) ∧
    (∀ (bx bz st : ℕ) (bw bd sh : ℚ),
      (rbNodes bx bz st bw bd sh).map Prod.fst =
        List.range' 1 (rbNodes bx bz st bw bd sh).length) ∧
    (∀ bx bz st : ℕ,
      (rbBeams bx bz st).map Prod.fst =
        List.range' 1 (rbBeams bx bz st).length ∧
      (rbColumns bx bz st).map Prod.fst =
        List.range' 1000 (rbColumns bx bz st).length) :=
  ⟨fun span height p b => ⟨motolNodes_ids span height p b, motolMembers_ids p b⟩,
   fun bx bz st bw bd sh => rbNodes_ids bx bz st bw bd sh,
   fun bx bz st => ⟨rbBeams_ids bx bz st, rbColumns_ids bx bz st⟩⟩

/-- C4 (counterexample): for the 1×1-bay, 1-story grid the build creates
8 members (4 beams, 4 columns), but the member id 1000 occurs, so the
member ids are not the contiguous range `1 .. 8`. -/
theorem grid_member_ids_not_contiguous :
    (rbMembers 1 1 1).length = 8 ∧
    1000 ∈ (rbMembers 1 1 1).map Prod.fst ∧
    ¬ (∀ id ∈ (rbMembers 1 1 1).map Prod.fst,
        id ∈ List.range' 1 (rbMembers 1 1 1).length) := by
  decide

/-! ## Bowstring arch heights (C8)

The spec instance `span = 120, height = 20, panel_count = 8`.  The top
chord of the Bowstring arch is the second block of `motolNodes`, so the
top joint of index `i` sits at list position `9 + i` and carries node id
`10 + i`. -/

/-- `√(2 - √2)` is irrational: were it a rational `q`, then
`√2 = 2 - q²` would be rational. -/
theorem irrational_sqrt_two_sub_sqrt_two :
    Irrational (Real.sqrt (2 - Real.sqrt 2)) := by
  rintro ⟨q, hq⟩
  have h2 : Real.sqrt 2 ≤ 2 := by
    nlinarith [Real.sq_sqrt (show (0:ℝ) ≤ 2 by norm_num), Real.sqrt_nonneg 2]
  have hnn : (0:ℝ) ≤ 2 - Real.sqrt 2 := by linarith
  have hsq : ((q : ℝ)) ^ 2 = 2 - Real.sqrt 2 := by
    rw [hq]
    exact Real.sq_sqrt hnn
  refine irrational_sqrt_two ⟨2 - q ^ 2, ?_⟩
  push_cast
  linarith

/-- The exact bowstring peak-height expression `20 * sin(π/8)` at panel
index 1 is irrational. -/
theorem irrational_bowstring_height_one :
    Irrational (20 * Real.sin (((1:ℝ) / (8:ℝ)) * Real.pi)) := by
  rw [show ((1:ℝ) / (8:ℝ)) * Real.pi = Real.pi / 8 by ring,
    Real.sin_pi_div_eight]
  rintro ⟨q, hq⟩
  refine irrational_sqrt_two_sub_sqrt_two ⟨q / 10, ?_⟩
  push_cast
  linarith

/-- The top node of the default bowstring arch at panel index `i < 9`. -/
theorem bowstring_top_entry (i : ℕ) (hi : i < 9) :
    (motolNodes 120 20 8 .bowstring)[9 + i]? =
      some (8 + 2 + i, round4 ((i : ℝ) * ((120 : ℝ) / ((8:ℕ) : ℝ))),
        round4 ((20:ℝ) * Real.sin (((i : ℝ) / ((8:ℕ) : ℝ)) * Real.pi)),
        0) := by
  rw [motolNodes]
  rw [List.getElem?_append_right (by simp)]
  simp [hi]

/-- C8 (amended): for the Bowstring arch with `span = 120, height = 20,
panel_count = 8`, the generated top-joint height is the exact value
`20 * sin(i/8 * π)` rounded to 4 decimal places; at the endpoints
(`i = 0`, `i = 8`) it is exactly 0, and at midspan (`i = 4`) exactly 20
(the peak). -/
theorem bowstring_arch_heights :
    (motolNodes 120 20 8 .bowstring)[9]? = some (10, 0, 0, 0) ∧
    (motolNodes 120 20 8 .bowstring)[13]? = some (14, 60, 20, 0) ∧
    (motolNodes 120 20 8 .bowstring)[17]? = some (18, 120, 0, 0) := by
  refine ⟨?_, ?_, ?_⟩
  · have h := bowstring_top_entry 0 (by norm_num)
    rw [show (9:ℕ) = 9 + 0 by rfl, h]
    have hx : round4 (((0:ℕ) : ℝ) * ((120 : ℝ) / ((8:ℕ) : ℝ))) = 0 := by
      have := round4_of_mul_int (((0:ℕ) : ℝ) * ((120 : ℝ) / ((8:ℕ) : ℝ))) 0
        (by push_cast; ring)
      rw [this]
      push_cast
      ring
    have hy : round4 ((20:ℝ) *
        Real.sin ((((0:ℕ) : ℝ) / ((8:ℕ) : ℝ)) * Real.pi)) = 0 := by
      have harg : (((0:ℕ) : ℝ) / ((8:ℕ) : ℝ)) * Real.pi = 0 := by
        push_cast
        ring
      rw [harg, Real.sin_zero, mul_zero]
      have := round4_of_mul_int (0:ℝ) 0 (by norm_num)
      rw [this]
    rw [hx, hy]
  · have h := bowstring_top_entry 4 (by norm_num)
    rw [show (13:ℕ) = 9 + 4 by rfl, h]
    have hx : round4 (((4:ℕ) : ℝ) * ((120 : ℝ) / ((8:ℕ) : ℝ))) = 60 := by
      have := round4_of_mul_int (((4:ℕ) : ℝ) * ((120 : ℝ) / ((8:ℕ) : ℝ))) 600000
        (by push_cast; norm_num)
      rw [this]
      push_cast
      norm_num
    have hy : round4 ((20:ℝ) *
        Real.sin ((((4:ℕ) : ℝ) / ((8:ℕ) : ℝ)) * Real.pi)) = 20 := by
      have harg : (((4:ℕ) : ℝ) / ((8:ℕ) : ℝ)) * Real.pi = Real.pi / 2 := by
        push_cast
        ring
      rw [harg, Real.sin_pi_div_two, mul_one]
      have := round4_of_mul_int (20:ℝ) 200000 (by norm_num)
      rw [this]
    rw [hx, hy]
  · have h := bowstring_top_entry 8 (by norm_num)
    rw [show (17:ℕ) = 9 + 8 by rfl, h]
    have hx : round4 (((8:ℕ) : ℝ) * ((120 : ℝ) / ((8:ℕ) : ℝ))) = 120 := by
      have := round4_of_mul_int (((8:ℕ) : ℝ) * ((120 : ℝ) / ((8:ℕ) : ℝ))) 1200000
        (by push_cast; norm_num)
      rw [this]
      push_cast
      norm_num
    have hy : round4 ((20:ℝ) *
        Real.sin ((((8:ℕ) : ℝ) / ((8:ℕ) : ℝ)) * Real.pi)) = 0 := by
      have harg : (((8:ℕ) : ℝ) / ((8:ℕ) : ℝ)) * Real.pi = Real.pi := by
        push_cast
        ring
      rw [harg, Real.sin_pi, mul_zero]
      have := round4_of_mul_int (0:ℝ) 0 (by norm_num)
      rw [this]
    rw [hx, hy]

/-- C8 (counterexample): the generated height of the bowstring top joint
at panel index 1 is the rounded value `round(20·sin(π/8), 4)`, which is
rational, so it is not equal to the exact value `20 * sin(1/8 · π)`
claimed by the spec (an irrational number). -/
theorem bowstring_height_not_exact :
    ((motolNodes 120 20 8 .bowstring)[10]?).map (fun n => n.2.2.1) ≠
      some (20 * Real.sin (((1:ℝ) / (8:ℝ)) * Real.pi)) := by
  have h := bowstring_top_entry 1 (by norm_num)
  rw [show (10:ℕ) = 9 + 1 by rfl, h]
  intro heq
  have heq2 : round4 ((20:ℝ) *
      Real.sin ((((1:ℕ) : ℝ) / ((8:ℕ) : ℝ)) * Real.pi)) =
      20 * Real.sin (((1:ℝ) / (8:ℝ)) * Real.pi) := by
    simpa using heq
  have hcast : (((1:ℕ) : ℝ) / ((8:ℕ) : ℝ)) = ((1:ℝ) / (8:ℝ)) := by push_cast; ring
  rw [hcast] at heq2
  obtain ⟨q, hq⟩ := round4_rat ((20:ℝ) * Real.sin (((1:ℝ) / (8:ℝ)) * Real.pi))
  rw [heq2] at hq
  exact irrational_bowstring_height_one ⟨q, hq.symm⟩

/-! ## Planar plate mesher (TAKABE project-takabe.py)

`generate_model` (lines 148-173) resets the counters to 1, then calls
`generate_wall` (lines 175-220) and `generate_slab` (lines 222-270).
Both mesh a 2D index grid at unit (1 ft) spacing: nodes over
`range(cols+1) × range(rows+1)` with the inner index fastest, then one
4-node quad plate per unit cell with corner order
`(i,j), (i+1,j), (i+1,j+1), (i,j+1)`.  The divisions are
`int(dimension)`; for the integer dimensions of the claim this is the
dimension itself. -/

/-- `node_map[(i, j)]` of `generate_wall`: the node counter starts at 1
and increments with `j` (the height index) fastest. -/
def wallNodeId (h i j : ℕ) : ℕ := 1 + i * (h + 1) + j

/-- Wall nodes (lines 186-202): the wall lies in the plane `x = 0` with
`y = i · 1.0` (width direction) and `z = j · 1.0` (height direction). -/
def wallNodes (w h : ℕ) : List (ℕ × ℚ × ℚ × ℚ) :=
  (List.range (w + 1)).flatMap fun i =>
    (List.range (h + 1)).map fun j =>
      (wallNodeId h i j, 0, (i : ℚ), (j : ℚ))

/-- Wall plates (lines 204-220): one 4-node quad per unit cell, corners
`(i,j), (i+1,j), (i+1,j+1), (i,j+1)`; the plate counter starts at 1 with
`j` fastest. -/
def wallPlates (w h : ℕ) : List (ℕ × List ℕ) :=
  (List.range w).flatMap fun i =>
    (List.range h).map fun j =>
      (1 + i * h + j,
       [wallNodeId h i j, wallNodeId h (i + 1) j,
        wallNodeId h (i + 1) (j + 1), wallNodeId h i (j + 1)])

/-- `node_map[(i, j)]` of `generate_slab`: the node counter continues
after the `(w+1)(h+1)` wall nodes. -/
def slabNodeId (w h sw i j : ℕ) : ℕ :=
  1 + (w + 1) * (h + 1) + i * (sw + 1) + j

/-- Slab nodes (lines 237-253): the slab lies in the plane `z = 0`,
shifted by `x_offset = -((length - wall_width)/2)` to centre it under
the wall. -/
def slabNodes (w h l sw : ℕ) : List (ℕ × ℚ × ℚ × ℚ) :=
  (List.range (l + 1)).flatMap fun i =>
    (List.range (sw + 1)).map fun j =>
      (slabNodeId w h sw i j,
       -(((l : ℚ) - (w : ℚ)) / 2) + (i : ℚ), (j : ℚ), 0)

/-- Slab plates (lines 255-270): same unit-cell adjacency rule on the
slab's own `length × width` grid; the plate counter continues after the
`w*h` wall plates. -/
def slabPlates (w h l sw : ℕ) : List (ℕ × List ℕ) :=
  (List.range l).flatMap fun i =>
    (List.range sw).map fun j =>
      (1 + w * h + i * sw + j,
       [slabNodeId w h sw i j, slabNodeId w h sw (i + 1) j,
        slabNodeId w h sw (i + 1) (j + 1), slabNodeId w h sw i (j + 1)])

/-- The complete floodwall model of `generate_model`. -/
def takabeNodes (w h l sw : ℕ) : List (ℕ × ℚ × ℚ × ℚ) :=
  wallNodes w h ++ slabNodes w h l sw

/-- All plates of the floodwall model, wall first. -/
def takabePlates (w h l sw : ℕ) : List (ℕ × List ℕ) :=
  wallPlates w h ++ slabPlates w h l sw

/-- C10: for integer wall width `w` and height `h` at unit spacing, the
wall contributes exactly `(w+1)(h+1)` nodes and `w*h` 4-joint quad
plates, the cell at grid index `(i,j)` listing its corners in the order
`(i,j), (i+1,j), (i+1,j+1), (i,j+1)`; the slab is meshed by the same
rule on its own length-by-width grid. -/
theorem plate_mesh_law (w h l sw : ℕ) :
    (wallNodes w h).length = (w + 1) * (h + 1) ∧
    (wallPlates w h).length = w * h ∧
    (∀ i j : ℕ, i < w → j < h →
      (1 + i * h + j,
       [wallNodeId h i j, wallNodeId h (i + 1) j,
        wallNodeId h (i + 1) (j + 1), wallNodeId h i (j + 1)])
        ∈ wallPlates w h) ∧
    (slabNodes w h l sw).length = (l + 1) * (sw + 1) ∧
    (slabPlates w h l sw).length = l * sw ∧
    (∀ i j : ℕ, i < l → j < sw →
      (1 + w * h + i * sw + j,
       [slabNodeId w h sw i j, slabNodeId w h sw (i + 1) j,
        slabNodeId w h sw (i + 1) (j + 1), slabNodeId w h sw i (j + 1)])
        ∈ slabPlates w h l sw) := by
  refine ⟨?_, ?_, ?_, ?_, ?_, ?_⟩
  · exact length_flatMap_const _ _ _ fun i => by simp
  · exact length_flatMap_const _ _ _ fun i => by simp
  · intro i j hi hj
    refine List.mem_flatMap_of_mem (List.mem_range.2 hi) ?_
    exact List.mem_map.2 ⟨j, List.mem_range.2 hj, rfl⟩
  · exact length_flatMap_const _ _ _ fun i => by simp
  · exact length_flatMap_const _ _ _ fun i => by simp
  · intro i j hi hj
    refine List.mem_flatMap_of_mem (List.mem_range.2 hi) ?_
    exact List.mem_map.2 ⟨j, List.mem_range.2 hj, rfl⟩

/-- Witness for `plate_mesh_law` at the GUI defaults
(wall 20 × 10, slab 20 × 15), cell `(1,1)` on each component. -/
theorem plate_mesh_law_witness :
    (wallNodes 20 10).length = 231 ∧
    (wallPlates 20 10).length = 200 ∧
    (12, [13, 24, 25, 14]) ∈ wallPlates 20 10 ∧
    (slabNodes 20 10 20 15).length = 336 ∧
    (slabPlates 20 10 20 15).length = 300 ∧
    (217, [249, 265, 266, 250]) ∈ slabPlates 20 10 20 15 := by
  obtain ⟨h1, h2, h3, h4, h5, h6⟩ := plate_mesh_law 20 10 20 15
  exact ⟨h1, h2, h3 1 1 (by norm_num) (by norm_num), h4, h5,
    h6 1 1 (by norm_num) (by norm_num)⟩

/-- Witness for `motol_truss_connected`: in the 3-panel Warren truss,
joint 6 (a top-chord joint) is reachable from joint 2. -/
theorem motol_truss_connected_witness :
    Relation.ReflTransGen (memAdj (motolMembers 3 .warren)) 2 6 := by
  have h := motol_truss_connected 120 20 3 .warren
  refine h 2 ?_ 6 ?_ <;>
    · rw [motolNodes_map_fst]
      decide

/-- Witness for `id_density_law` at concrete sizes: the 8-panel Warren
truss member ids are `1 .. 31`; the 1×1-bay, 1-story grid has beam ids
`1 .. 4` and column ids `1000 .. 1003`. -/
theorem id_density_law_witness :
    (motolMembers 8 .warren).map Prod.fst = List.range' 1 31 ∧
    (rbBeams 1 1 1).map Prod.fst = List.range' 1 4 ∧
    (rbColumns 1 1 1).map Prod.fst = List.range' 1000 4 := by
  obtain ⟨hmot, -, hgrid⟩ := id_density_law
  refine ⟨?_, ?_, ?_⟩
  · have h := (hmot 120 20 8 .warren).2
    have hl : (motolMembers 8 .warren).length = 31 := by decide
    rw [hl] at h
    exact h
  · have h := (hgrid 1 1 1).1
    have hl : (rbBeams 1 1 1).length = 4 := by decide
    rw [hl] at h
    exact h
  · have h := (hgrid 1 1 1).2
    have hl : (rbColumns 1 1 1).length = 4 := by decide
    rw [hl] at h
    exact h

/-- Witness for `rigid_frame_scenario_counts` at station `f = 2`. -/
theorem rigid_frame_scenario_counts_witness :
    (11, (2 : ℚ) * 25, (0 : ℚ), (0 : ℚ)) ∈ gutierrezNodes psDefault ∧
    (13, (2 : ℚ) * 25, (28 : ℚ), (30 : ℚ)) ∈ gutierrezNodes psDefault := by
  have h := (rigid_frame_scenario_counts.2.2.2.2.2.2) 2 (by norm_num)
  exact ⟨h.1, h.2.2.1⟩

end Spec2Proof
